import Mathlib

/-!
Verification of the Toyota stock-risk dashboard (src/app.py) against its
natural-language specification.

The dashboard's navigation and table logic is shallowly embedded:

* Calendar dates are a `Date` structure (year/month/day) with the Gregorian
  month lengths; `relativedelta(months=±1)` (app.py lines 54 and 59) becomes
  `nextMonth`/`prevMonth`, which shift the month and clamp the day-of-month to
  the length of the target month, exactly as `dateutil.relativedelta` does.
* `view_date.replace(day=1)` (line 62) becomes `startOfMonth`;
  `start_of_month + relativedelta(months=1) - relativedelta(days=1)` (line 63)
  becomes `endOfMonth`, built from `nextMonth` and a one-day decrement.
* The forecast table is a list of (date, risk-score) rows over an arbitrary
  linearly ordered date type; scores are rationals (the code's floats carry
  exact CSV decimals through mean/min/max).
* The pandas range filter (lines 67-70) becomes `datesInRange`/`rowsInRange`,
  `.loc[selected_day, 'RiskScore_Percent']` (line 98) becomes `dayScore`
  returning `Except` (pandas raises `KeyError`, a `LookupError`), the
  mean/max/min metrics (lines 107-109) become `avg_risk`/`max_risk`/`min_risk`,
  and the Section-A guard (lines 92 and 132) becomes `renderSectionA`.
* The historical-series loop (lines 136-143) becomes `mapper`/`resolve`.
-/

namespace ToyotaRisk

/-- Gregorian leap-year test, as `dateutil`'s calendar uses. -/
def isLeapYear (y : Int) : Bool :=
  (y % 4 == 0 && y % 100 != 0) || (y % 400 == 0)

/-- Number of days in month `m` of year `y` (0 for an invalid month index). -/
def daysInMonth (y : Int) (m : Nat) : Nat :=
  if m = 2 then (if isLeapYear y then 29 else 28)
  else if m = 4 ∨ m = 6 ∨ m = 9 ∨ m = 11 then 30
  else if 1 ≤ m ∧ m ≤ 12 then 31
  else 0

/-- A calendar date, the type of `st.session_state.view_date` in app.py. -/
structure Date where
  year : Int
  month : Nat
  day : Nat
deriving DecidableEq, Repr

/-- A `Date` actually denotes a calendar day. -/
def Date.Valid (d : Date) : Prop :=
  1 ≤ d.month ∧ d.month ≤ 12 ∧ 1 ≤ d.day ∧ d.day ≤ daysInMonth d.year d.month

instance (d : Date) : Decidable d.Valid := by
  unfold Date.Valid; infer_instance

/-- `view_date += relativedelta(months=1)` (app.py line 59): step to the next
month, keeping the day-of-month but clamping it to the target month's length,
which is `dateutil.relativedelta`'s overflow rule. -/
def nextMonth (d : Date) : Date :=
  let y := if d.month = 12 then d.year + 1 else d.year
  let m := if d.month = 12 then 1 else d.month + 1
  ⟨y, m, min d.day (daysInMonth y m)⟩

/-- `view_date -= relativedelta(months=1)` (app.py line 54). -/
def prevMonth (d : Date) : Date :=
  let y := if d.month = 1 then d.year - 1 else d.year
  let m := if d.month = 1 then 12 else d.month - 1
  ⟨y, m, min d.day (daysInMonth y m)⟩

/-- `view_date.replace(day=1)` (app.py line 62). -/
def startOfMonth (d : Date) : Date :=
  ⟨d.year, d.month, 1⟩

/-- `- relativedelta(days=1)`: the previous calendar day. -/
def subOneDay (d : Date) : Date :=
  if 1 < d.day then ⟨d.year, d.month, d.day - 1⟩
  else if 1 < d.month then ⟨d.year, d.month - 1, daysInMonth d.year (d.month - 1)⟩
  else ⟨d.year - 1, 12, 31⟩

/-- `end_of_month = start_of_month + relativedelta(months=1) - relativedelta(days=1)`
(app.py line 63). -/
def endOfMonth (d : Date) : Date :=
  subOneDay (nextMonth (startOfMonth d))

/-- The spec's `monthBounds(view_date) -> (start, end)` pair, as computed on
app.py lines 62-63. -/
def monthBounds (d : Date) : Date × Date :=
  (startOfMonth d, endOfMonth d)

/-- Linear count of the month containing `d`, used to state "shifts by exactly
one calendar month". -/
def monthIndex (d : Date) : Int :=
  12 * d.year + ((d.month : Int) - 1)

/-- Chronological order on dates. -/
def Date.le (a b : Date) : Prop :=
  a.year < b.year ∨
    (a.year = b.year ∧ (a.month < b.month ∨ (a.month = b.month ∧ a.day ≤ b.day)))

instance : LE Date := ⟨Date.le⟩

instance (a b : Date) : Decidable (a ≤ b) := by
  change Decidable (Date.le a b); unfold Date.le; infer_instance

/-- `dates_in_month` (app.py lines 67-70): the boolean-mask filter keeping the
forecast dates `d` with `start_of_month ≤ d ≤ end_of_month`, in table order.
The date type is any linearly ordered type, as pandas timestamps are. -/
def datesInRange {α : Type} [LinearOrder α] (dates : List α) (lo hi : α) : List α :=
  dates.filter (fun d => decide (lo ≤ d ∧ d ≤ hi))

/-- `forecast_df_filtered` (app.py line 94): the forecast rows whose date falls
in the month window; selecting `.loc[dates_in_month]` on the date-indexed table
keeps exactly the rows whose date passed the line 67-70 mask, in table order. -/
def rowsInRange {α : Type} [LinearOrder α] (table : List (α × ℚ)) (lo hi : α) :
    List (α × ℚ) :=
  table.filter (fun r => decide (lo ≤ r.1 ∧ r.1 ≤ hi))

/-- `forecast_df_filtered['RiskScore_Percent']`: the score column of the
filtered rows. -/
def riskScores {α : Type} [LinearOrder α] (table : List (α × ℚ)) (lo hi : α) : List ℚ :=
  (rowsInRange table lo hi).map Prod.snd

/-- `avg_risk = forecast_df_filtered['RiskScore_Percent'].mean()` (app.py
line 107): sum of the column divided by its length. -/
def avg_risk {α : Type} [LinearOrder α] (table : List (α × ℚ)) (lo hi : α) : ℚ :=
  (riskScores table lo hi).sum / ((riskScores table lo hi).length : ℚ)

/-- `max_risk = forecast_df_filtered['RiskScore_Percent'].max()` (app.py
line 108); `none` models pandas' missing result on an empty column. -/
def max_risk {α : Type} [LinearOrder α] (table : List (α × ℚ)) (lo hi : α) : Option ℚ :=
  (riskScores table lo hi).max?

/-- `min_risk = forecast_df_filtered['RiskScore_Percent'].min()` (app.py
line 109). -/
def min_risk {α : Type} [LinearOrder α] (table : List (α × ℚ)) (lo hi : α) : Option ℚ :=
  (riskScores table lo hi).min?

/-- `forecast_df_filtered.loc[selected_day, 'RiskScore_Percent']` (app.py
line 98): look the day up in the date index; pandas raises `KeyError` (a
`LookupError`) when the key is absent, modelled as `Except.error`. -/
def dayScore {α : Type} [DecidableEq α] (table : List (α × ℚ)) (day : α) :
    Except String ℚ :=
  (table.find? (fun r => decide (r.1 = day))).elim (Except.error "KeyError")
    (fun r => Except.ok r.2)

/-- What the forecast chart receives (app.py lines 117-122): the plotted
(date, score) series from line 118 and the `axvline` day marker from
line 122. -/
structure ChartOutput (α : Type) where
  series : List (α × ℚ)
  marker : Option α

/-- Build the forecast chart: the series is the filtered table, used verbatim;
the selected day only becomes the marker. -/
def renderForecastChart {α : Type} [LinearOrder α] (table : List (α × ℚ)) (lo hi : α)
    (selectedDay : Option α) : ChartOutput α :=
  { series := rowsInRange table lo hi, marker := selectedDay }

/-- The `st.warning` text on app.py line 132. -/
def warningMsg : String :=
  "`predicted_risk_scores.csv` not found or contains no data for the selected month."

/-- What Section A of the dashboard renders: either the warning (line 132) or
the metric cards plus chart (lines 94-130). -/
inductive SectionA (α : Type) where
  | warning (msg : String)
  | metrics (dayCard : Option (Except String ℚ)) (avg : ℚ) (mx : Option ℚ)
      (mn : Option ℚ) (chart : ChartOutput α)

/-- Section A (app.py lines 92-132): when the forecast table is absent or the
month window holds no forecast dates, show the warning; otherwise show the
selected-day metric card, the monthly average/max/min cards and the chart. -/
def renderSectionA {α : Type} [LinearOrder α] (forecast : Option (List (α × ℚ)))
    (lo hi : α) (selectedDay : Option α) : SectionA α :=
  match forecast with
  | none => SectionA.warning warningMsg
  | some table =>
      if datesInRange (table.map Prod.fst) lo hi = [] then SectionA.warning warningMsg
      else
        SectionA.metrics (selectedDay.map (fun day => dayScore (rowsInRange table lo hi) day))
          (avg_risk table lo hi) (max_risk table lo hi) (min_risk table lo hi)
          (renderForecastChart table lo hi selectedDay)

/-- The `mapper` dict (app.py line 138) from the four multiselect labels to
`data_dict` keys; labels outside the fixed selector list have no mapping. -/
def mapper (label : String) : Option String :=
  if label = "7-Day (Weekly)" then some "hist_7d"
  else if label = "30-Day (Monthly)" then some "hist_30d"
  else if label = "90-Day (Quarterly)" then some "hist_90d"
  else if label = "250-Day (Annual)" then some "hist_250d"
  else none

/-- The historical-series loop (app.py lines 139-143): for each selected label,
map it to its `data_dict` key and plot the table when it was loaded; a label
whose table is missing contributes nothing. `dataDict` is the loader's result:
`none` for a key whose file was absent. -/
def resolve {τ : Type} (dataDict : String → Option τ) (options : List String) :
    List (String × τ) :=
  options.filterMap
    (fun o => (mapper o).bind (fun key => (dataDict key).map (fun t => (o, t))))

/-- A loader outcome with only the 7-day and 90-day volatility files present
(the 30-day and 250-day files missing), used to check the degraded-availability
scenario. -/
def sampleHistLoad : String → Option (List (Date × ℚ)) :=
  fun k => if k = "hist_7d" ∨ k = "hist_90d" then some [] else none

/-- Modelled from the spec: the day-selection fallback policy is implemented by
the external selectbox widget that app.py line 73 calls, and the UI widget
framework is an out-of-scope external collaborator (spec section 1), so the
policy is taken from spec section 4.2: return the requested day when it is
present in the candidates, otherwise the first available candidate; empty
candidates signal an empty result (`none`). -/
def selectDay {α : Type} [DecidableEq α] (candidates : List α) (requested : Option α) :
    Option α :=
  match requested with
  | some r => if r ∈ candidates then some r else candidates.head?
  | none => candidates.head?

theorem daysInMonth_bounds (y : Int) (m : Nat) (h1 : 1 ≤ m) (h2 : m ≤ 12) :
    28 ≤ daysInMonth y m ∧ daysInMonth y m ≤ 31 := by
  unfold daysInMonth
  split_ifs <;> omega

theorem endOfMonth_eq (d : Date) (h : d.Valid) :
    endOfMonth d = ⟨d.year, d.month, daysInMonth d.year d.month⟩ := by
  obtain ⟨y, m, day⟩ := d
  obtain ⟨h1, h2, -, -⟩ := h
  dsimp only at h1 h2
  interval_cases m <;>
    simp [endOfMonth, startOfMonth, nextMonth, subOneDay, daysInMonth]

theorem nextMonth_valid (d : Date) (h : d.Valid) : (nextMonth d).Valid := by
  obtain ⟨y, m, day⟩ := d
  obtain ⟨h1, h2, h3, h4⟩ := h
  dsimp only at h1 h2 h3 h4
  by_cases hm : m = 12
  · have hb := daysInMonth_bounds (y + 1) 1 (by omega) (by omega)
    simp [nextMonth, Date.Valid, hm]
    omega
  · have hb := daysInMonth_bounds y (m + 1) (by omega) (by omega)
    simp [nextMonth, Date.Valid, hm]
    omega

theorem prevMonth_valid (d : Date) (h : d.Valid) : (prevMonth d).Valid := by
  obtain ⟨y, m, day⟩ := d
  obtain ⟨h1, h2, h3, h4⟩ := h
  dsimp only at h1 h2 h3 h4
  by_cases hm : m = 1
  · have hb := daysInMonth_bounds (y - 1) 12 (by omega) (by omega)
    simp [prevMonth, Date.Valid, hm]
    omega
  · have hb := daysInMonth_bounds y (m - 1) (by omega) (by omega)
    simp [prevMonth, Date.Valid, hm]
    omega

theorem monthIndex_nextMonth (d : Date) (h : d.Valid) :
    monthIndex (nextMonth d) = monthIndex d + 1 := by
  obtain ⟨y, m, day⟩ := d
  obtain ⟨h1, h2, -, -⟩ := h
  dsimp only at h1 h2
  by_cases hm : m = 12 <;> simp [nextMonth, monthIndex, hm] <;> omega

theorem monthIndex_prevMonth (d : Date) (h : d.Valid) :
    monthIndex (prevMonth d) = monthIndex d - 1 := by
  obtain ⟨y, m, day⟩ := d
  obtain ⟨h1, h2, -, -⟩ := h
  dsimp only at h1 h2
  by_cases hm : m = 1 <;> simp [prevMonth, monthIndex, hm] <;> omega

theorem roundtrip_month_year (y : Int) (m day : Nat) (h1 : 1 ≤ m) (h2 : m ≤ 12) :
    (nextMonth (prevMonth ⟨y, m, day⟩)).year = y ∧
      (nextMonth (prevMonth ⟨y, m, day⟩)).month = m ∧
      (prevMonth (nextMonth ⟨y, m, day⟩)).year = y ∧
      (prevMonth (nextMonth ⟨y, m, day⟩)).month = m := by
  interval_cases m <;> simp [nextMonth, prevMonth]

/-- Claim C8: `monthBounds(view_date)` (app.py lines 62-63) returns the first
and last calendar day of the month containing `view_date`, and the first
component is chronologically at most the last. -/
theorem monthBounds_spec (d : Date) (h : d.Valid) :
    monthBounds d = (⟨d.year, d.month, 1⟩, ⟨d.year, d.month, daysInMonth d.year d.month⟩) ∧
      (monthBounds d).1 ≤ (monthBounds d).2 := by
  have he : monthBounds d
      = (⟨d.year, d.month, 1⟩, ⟨d.year, d.month, daysInMonth d.year d.month⟩) := by
    simp [monthBounds, startOfMonth, endOfMonth_eq d h]
  refine ⟨he, ?_⟩
  rw [he]
  have hD := (daysInMonth_bounds d.year d.month h.1 h.2.1).1
  exact Or.inr ⟨rfl, Or.inr ⟨rfl, by dsimp only; omega⟩⟩

/-- Witness for C8 at the concrete date 10 February 2025. -/
theorem monthBounds_spec_witness :
    (Date.mk 2025 2 10).Valid ∧
      (monthBounds ⟨2025, 2, 10⟩
          = (⟨2025, 2, 1⟩, ⟨2025, 2, daysInMonth 2025 2⟩) ∧
        (monthBounds ⟨2025, 2, 10⟩).1 ≤ (monthBounds ⟨2025, 2, 10⟩).2) :=
  ⟨by decide, monthBounds_spec ⟨2025, 2, 10⟩ (by decide)⟩

/-- Claim C1 counterexample: `view_date += relativedelta(months=1)` (app.py
line 59) does not anchor the resulting `view_date` to the first day of the
resulting month; from 15 December 2024 the Next button yields 15 January 2025,
not 1 January 2025. -/
theorem nextMonth_not_anchored_counterexample :
    (Date.mk 2024 12 15).Valid ∧ nextMonth ⟨2024, 12, 15⟩ = ⟨2025, 1, 15⟩ ∧
      nextMonth ⟨2024, 12, 15⟩ ≠ ⟨2025, 1, 1⟩ ∧ (nextMonth ⟨2024, 12, 15⟩).day ≠ 1 := by
  decide

/-- Claim C1 (amended): `prevMonth`/`nextMonth` shift `view_date` by exactly
one calendar month (the month index moves by exactly one), preserving the
day-of-month up to clamping rather than anchoring `view_date` itself to day 1;
the month anchor computed downstream (`start_of_month`, app.py line 62) is the
first day of the resulting month, so pressing Next from any date in December of
year Y yields a `view_date` in January of year Y+1 whose month anchor is
1 January of year Y+1. -/
theorem month_step_spec (d : Date) (h : d.Valid) :
    monthIndex (nextMonth d) = monthIndex d + 1 ∧
      monthIndex (prevMonth d) = monthIndex d - 1 ∧
      (nextMonth d).Valid ∧ (prevMonth d).Valid ∧
      startOfMonth (nextMonth d) = ⟨(nextMonth d).year, (nextMonth d).month, 1⟩ ∧
      (d.month = 12 →
        (nextMonth d).year = d.year + 1 ∧ (nextMonth d).month = 1 ∧
          startOfMonth (nextMonth d) = ⟨d.year + 1, 1, 1⟩) := by
  refine ⟨monthIndex_nextMonth d h, monthIndex_prevMonth d h, nextMonth_valid d h,
    prevMonth_valid d h, rfl, fun hm => ?_⟩
  simp [nextMonth, startOfMonth, hm]

/-- Witness for C1 at the concrete date 15 December 2024. -/
theorem month_step_spec_witness :
    (Date.mk 2024 12 15).Valid ∧
      (monthIndex (nextMonth ⟨2024, 12, 15⟩) = monthIndex ⟨2024, 12, 15⟩ + 1 ∧
        monthIndex (prevMonth ⟨2024, 12, 15⟩) = monthIndex ⟨2024, 12, 15⟩ - 1 ∧
        (nextMonth ⟨2024, 12, 15⟩).Valid ∧ (prevMonth ⟨2024, 12, 15⟩).Valid ∧
        startOfMonth (nextMonth ⟨2024, 12, 15⟩)
          = ⟨(nextMonth ⟨2024, 12, 15⟩).year, (nextMonth ⟨2024, 12, 15⟩).month, 1⟩ ∧
        ((Date.mk 2024 12 15).month = 12 →
          (nextMonth ⟨2024, 12, 15⟩).year = (2024 : Int) + 1 ∧
            (nextMonth ⟨2024, 12, 15⟩).month = 1 ∧
            startOfMonth (nextMonth ⟨2024, 12, 15⟩) = ⟨(2024 : Int) + 1, 1, 1⟩)) :=
  ⟨by decide, month_step_spec ⟨2024, 12, 15⟩ (by decide)⟩

/-- Claim C10: stepping Prev then Next (or Next then Prev) from any valid
`view_date` restores the original calendar month and year, though the
day-of-month may differ when the original day overflows the intermediate
month: 31 March 2025 steps to 28 February 2025 and back to 28 March 2025. -/
theorem month_roundtrip (d : Date) (h : d.Valid) :
    (nextMonth (prevMonth d)).year = d.year ∧
      (nextMonth (prevMonth d)).month = d.month ∧
      (prevMonth (nextMonth d)).year = d.year ∧
      (prevMonth (nextMonth d)).month = d.month ∧
      prevMonth ⟨2025, 3, 31⟩ = ⟨2025, 2, 28⟩ ∧
      nextMonth (prevMonth ⟨2025, 3, 31⟩) = ⟨2025, 3, 28⟩ := by
  obtain ⟨y, m, day⟩ := d
  obtain ⟨h1, h2, -, -⟩ := h
  dsimp only at h1 h2
  have hr := roundtrip_month_year y m day h1 h2
  exact ⟨hr.1, hr.2.1, hr.2.2.1, hr.2.2.2, by decide, by decide⟩

/-- Witness for C10 at the concrete date 31 March 2025. -/
theorem month_roundtrip_witness :
    (Date.mk 2025 3 31).Valid ∧
      ((nextMonth (prevMonth ⟨2025, 3, 31⟩)).year = (2025 : Int) ∧
        (nextMonth (prevMonth ⟨2025, 3, 31⟩)).month = 3 ∧
        (prevMonth (nextMonth ⟨2025, 3, 31⟩)).year = (2025 : Int) ∧
        (prevMonth (nextMonth ⟨2025, 3, 31⟩)).month = 3 ∧
        prevMonth ⟨2025, 3, 31⟩ = ⟨2025, 2, 28⟩ ∧
        nextMonth (prevMonth ⟨2025, 3, 31⟩) = ⟨2025, 3, 28⟩) :=
  ⟨by decide, month_roundtrip ⟨2025, 3, 31⟩ (by decide)⟩

theorem sum_le_length_mul (l : List ℚ) (b : ℚ) (h : ∀ x ∈ l, x ≤ b) :
    l.sum ≤ (l.length : ℚ) * b := by
  induction l with
  | nil => simp
  | cons a t ih =>
    have ha := h a (List.mem_cons_self a t)
    have ht := ih fun x hx => h x (List.mem_cons_of_mem a hx)
    simp only [List.sum_cons, List.length_cons]
    have hb : ((t.length + 1 : Nat) : ℚ) * b = (t.length : ℚ) * b + b := by
      push_cast
      ring
    rw [hb]
    linarith

theorem length_mul_le_sum (l : List ℚ) (b : ℚ) (h : ∀ x ∈ l, b ≤ x) :
    (l.length : ℚ) * b ≤ l.sum := by
  induction l with
  | nil => simp
  | cons a t ih =>
    have ha := h a (List.mem_cons_self a t)
    have ht := ih fun x hx => h x (List.mem_cons_of_mem a hx)
    simp only [List.sum_cons, List.length_cons]
    have hb : ((t.length + 1 : Nat) : ℚ) * b = (t.length : ℚ) * b + b := by
      push_cast
      ring
    rw [hb]
    linarith

/-- Claim C2: the month filter (app.py lines 67-70) returns exactly the table
dates `d` with `start ≤ d ≤ end`, as a strictly ascending subsequence of the
table's dates (the table being sorted strictly ascending, per the data model);
filtering by a range that covers the whole table returns all of its dates. -/
theorem datesInRange_spec {α : Type} [LinearOrder α] (dates : List α) (lo hi : α)
    (hsorted : List.Pairwise (· < ·) dates) :
    (datesInRange dates lo hi).Sublist dates ∧
      List.Pairwise (· < ·) (datesInRange dates lo hi) ∧
      (∀ d, d ∈ datesInRange dates lo hi ↔ d ∈ dates ∧ lo ≤ d ∧ d ≤ hi) ∧
      ((∀ d ∈ dates, lo ≤ d ∧ d ≤ hi) → datesInRange dates lo hi = dates) := by
  refine ⟨List.filter_sublist _, hsorted.filter _, ?_, ?_⟩
  · intro d
    simp [datesInRange, List.mem_filter]
  · intro hall
    apply List.filter_eq_self.mpr
    intro a ha
    simpa using hall a ha

/-- Witness for C2 on the table of dates [1, 3, 5] with the range [1, 5]. -/
theorem datesInRange_spec_witness :
    List.Pairwise (· < ·) [1, 3, 5] ∧
      ((datesInRange [1, 3, 5] 1 5).Sublist [1, 3, 5] ∧
        List.Pairwise (· < ·) (datesInRange [1, 3, 5] 1 5) ∧
        (∀ d, d ∈ datesInRange [1, 3, 5] 1 5 ↔ d ∈ [1, 3, 5] ∧ 1 ≤ d ∧ d ≤ 5) ∧
        ((∀ d ∈ [1, 3, 5], 1 ≤ d ∧ d ≤ 5) → datesInRange [1, 3, 5] 1 5 = [1, 3, 5])) :=
  ⟨by decide, datesInRange_spec [1, 3, 5] 1 5 (by decide)⟩

/-- Claim C3: over a non-empty candidate set the monthly metrics (app.py lines
107-109) satisfy min ≤ mean ≤ max, and on a single-element candidate set all
three equal that element's score. -/
theorem monthlyStats_spec {α : Type} [LinearOrder α] (table : List (α × ℚ)) (lo hi : α)
    (hne : riskScores table lo hi ≠ []) :
    ∃ mn mx, min_risk table lo hi = some mn ∧ max_risk table lo hi = some mx ∧
      mn ≤ avg_risk table lo hi ∧ avg_risk table lo hi ≤ mx ∧
      (∀ x, riskScores table lo hi = [x] →
        mn = x ∧ avg_risk table lo hi = x ∧ mx = x) := by
  set l := riskScores table lo hi with hl
  have hlen : 0 < l.length := List.length_pos.mpr hne
  obtain ⟨mx, hmx⟩ : ∃ mx, l.max? = some mx := by
    cases h : l.max? with
    | none => exact absurd (List.max?_eq_none_iff.mp h) hne
    | some mx => exact ⟨mx, rfl⟩
  obtain ⟨mn, hmn⟩ : ∃ mn, l.min? = some mn := by
    cases h : l.min? with
    | none => exact absurd (List.min?_eq_none_iff.mp h) hne
    | some mn => exact ⟨mn, rfl⟩
  have hub : ∀ b ∈ l, b ≤ mx :=
    (List.max?_le_iff (fun a b c => max_le_iff) hmx).1 le_rfl
  have hlb : ∀ b ∈ l, mn ≤ b :=
    (List.le_min?_iff (fun a b c => le_min_iff) hmn).1 le_rfl
  have hsum_ub : l.sum ≤ (l.length : ℚ) * mx := sum_le_length_mul l mx hub
  have hsum_lb : (l.length : ℚ) * mn ≤ l.sum := length_mul_le_sum l mn hlb
  have hlq : (0 : ℚ) < (l.length : ℚ) := by exact_mod_cast hlen
  have havg : avg_risk table lo hi = l.sum / (l.length : ℚ) := rfl
  refine ⟨mn, mx, hmn, hmx, ?_, ?_, ?_⟩
  · rw [havg, le_div_iff₀ hlq, mul_comm]
    exact hsum_lb
  · rw [havg, div_le_iff₀ hlq, mul_comm]
    exact hsum_ub
  · intro x hx
    rw [hx] at hmn hmx
    simp only [List.min?_cons, List.min?_nil, Option.elim, List.max?_cons,
      List.max?_nil] at hmn hmx
    have hmn1 : mn = x := by injection hmn with h1; exact h1.symm
    have hmx1 : mx = x := by injection hmx with h1; exact h1.symm
    refine ⟨hmn1, ?_, hmx1⟩
    rw [havg, hx]
    norm_num

/-- Witness for C3 on the two-row table [(1, 10), (2, 20)] over the full
range. -/
theorem monthlyStats_spec_witness :
    riskScores [((1 : ℕ), (10 : ℚ)), (2, 20)] 1 2 ≠ [] ∧
      (∃ mn mx, min_risk [((1 : ℕ), (10 : ℚ)), (2, 20)] 1 2 = some mn ∧
        max_risk [((1 : ℕ), (10 : ℚ)), (2, 20)] 1 2 = some mx ∧
        mn ≤ avg_risk [((1 : ℕ), (10 : ℚ)), (2, 20)] 1 2 ∧
        avg_risk [((1 : ℕ), (10 : ℚ)), (2, 20)] 1 2 ≤ mx ∧
        (∀ x, riskScores [((1 : ℕ), (10 : ℚ)), (2, 20)] 1 2 = [x] →
          mn = x ∧ avg_risk [((1 : ℕ), (10 : ℚ)), (2, 20)] 1 2 = x ∧ mx = x)) :=
  ⟨by decide, monthlyStats_spec [((1 : ℕ), (10 : ℚ)), (2, 20)] 1 2 (by decide)⟩

/-- Claim C4: when the navigated month window holds no forecast dates, Section
A (app.py lines 92-132) renders the warning instead of computing statistics;
the result is the total `SectionA.warning` value, so no exception or NaN
reaches the user. -/
theorem empty_month_warning {α : Type} [LinearOrder α] (table : List (α × ℚ))
    (lo hi : α) (sel : Option α)
    (h : datesInRange (table.map Prod.fst) lo hi = []) :
    renderSectionA (some table) lo hi sel = SectionA.warning warningMsg := by
  simp [renderSectionA, h]

/-- Witness for C4: a one-row table whose date 5 lies outside the window
[1, 2]. -/
theorem empty_month_warning_witness :
    datesInRange ([((5 : ℕ), (10 : ℚ))].map Prod.fst) 1 2 = [] ∧
      renderSectionA (some [((5 : ℕ), (10 : ℚ))]) 1 2 none
        = SectionA.warning warningMsg :=
  ⟨by decide, empty_month_warning [((5 : ℕ), (10 : ℚ))] 1 2 none (by decide)⟩

/-- Claim C5: the day lookup (app.py line 98) returns the stored score exactly
when the day is present in the table's date index (unique per the data model),
and fails with the `KeyError` lookup failure exactly when it is absent. -/
theorem dayScore_spec {α : Type} [DecidableEq α] (table : List (α × ℚ)) (day : α)
    (huniq : (table.map Prod.fst).Nodup) :
    (∀ v, (day, v) ∈ table → dayScore table day = Except.ok v) ∧
      ((∃ e, dayScore table day = Except.error e) ↔ day ∉ table.map Prod.fst) := by
  induction table with
  | nil =>
    refine ⟨fun v hv => absurd hv (by simp), ?_⟩
    simp [dayScore]
  | cons r t ih =>
    obtain ⟨a, q⟩ := r
    have huniq2 : (a :: t.map Prod.fst).Nodup := by simpa using huniq
    obtain ⟨hnotin, hnod⟩ := List.nodup_cons.mp huniq2
    have ihs := ih hnod
    by_cases hr : a = day
    · subst hr
      have hds : dayScore ((a, q) :: t) a = Except.ok q := by
        unfold dayScore
        rw [List.find?_cons_of_pos _ (by simp)]
        rfl
      refine ⟨?_, by simp [hds]⟩
      intro v hv
      rcases List.mem_cons.mp hv with he | hmem
      · have hvq : v = q := by simpa using he
        rw [hds, hvq]
      · exact absurd (List.mem_map_of_mem Prod.fst hmem) hnotin
    · have hds : dayScore ((a, q) :: t) day = dayScore t day := by
        unfold dayScore
        rw [List.find?_cons_of_neg _ (by simp [hr])]
      refine ⟨?_, ?_⟩
      · intro v hv
        rcases List.mem_cons.mp hv with he | hmem
        · have hda : day = a ∧ v = q := by simpa using he
          exact absurd hda.1.symm hr
        · rw [hds]
          exact ihs.1 v hmem
      · rw [hds, ihs.2]
        constructor
        · intro h hmem2
          simp only [List.map_cons, List.mem_cons] at hmem2
          rcases hmem2 with h1 | h2
          · exact hr h1.symm
          · exact h h2
        · intro h hmem2
          exact h (by simp [hmem2])

/-- Witness for C5 on the table [(1, 10), (2, 20)] at the present day 2. -/
theorem dayScore_spec_witness :
    ([((1 : ℕ), (10 : ℚ)), (2, 20)].map Prod.fst).Nodup ∧
      ((∀ v, ((2 : ℕ), v) ∈ [((1 : ℕ), (10 : ℚ)), (2, 20)] →
          dayScore [((1 : ℕ), (10 : ℚ)), (2, 20)] 2 = Except.ok v) ∧
        ((∃ e, dayScore [((1 : ℕ), (10 : ℚ)), (2, 20)] 2 = Except.error e) ↔
          (2 : ℕ) ∉ [((1 : ℕ), (10 : ℚ)), (2, 20)].map Prod.fst)) :=
  ⟨by decide, dayScore_spec [((1 : ℕ), (10 : ℚ)), (2, 20)] 2 (by decide)⟩

/-- Claim C6: the historical-series loop (app.py lines 139-143) silently omits
every selected label whose mapped volatility table was never loaded; with the
30-day table missing, selecting exactly "30-Day (Monthly)" yields an empty
series list, whatever other tables are present. -/
theorem resolve_spec {τ : Type} (dataDict : String → Option τ) (options : List String) :
    (∀ o t, (o, t) ∈ resolve dataDict options ↔
        o ∈ options ∧ ∃ k, mapper o = some k ∧ dataDict k = some t) ∧
      (∀ o ∈ options, (∀ k, mapper o = some k → dataDict k = none) →
        ∀ t, (o, t) ∉ resolve dataDict options) ∧
      (dataDict "hist_30d" = none → resolve dataDict ["30-Day (Monthly)"] = []) := by
  have hchar : ∀ o t, (o, t) ∈ resolve dataDict options ↔
      o ∈ options ∧ ∃ k, mapper o = some k ∧ dataDict k = some t := by
    intro o t
    simp only [resolve, List.mem_filterMap, Option.bind_eq_some, Option.map_eq_some']
    constructor
    · rintro ⟨o2, ho2, k, hk, t2, ht2, he⟩
      obtain ⟨he1, he2⟩ : o2 = o ∧ t2 = t := by simpa using he
      subst he1
      subst he2
      exact ⟨ho2, k, hk, ht2⟩
    · rintro ⟨ho, k, hk, ht⟩
      exact ⟨o, ho, k, hk, t, ht, rfl⟩
  refine ⟨hchar, ?_, ?_⟩
  · intro o ho hnone t hmem
    obtain ⟨-, k, hk, ht⟩ := (hchar o t).mp hmem
    rw [hnone k hk] at ht
    exact Option.noConfusion ht
  · intro h30
    have hm : mapper "30-Day (Monthly)" = some "hist_30d" := rfl
    simp [resolve, List.filterMap_cons, hm, h30]

/-- Witness for C6 using the loader outcome with only the 7-day and 90-day
tables present. -/
theorem resolve_spec_witness :
    sampleHistLoad "hist_30d" = none ∧
      resolve sampleHistLoad ["30-Day (Monthly)"] = [] := by
  have h30 : sampleHistLoad "hist_30d" = none := by
    unfold sampleHistLoad
    simp
  exact ⟨h30, (resolve_spec sampleHistLoad ["30-Day (Monthly)"]).2.2 h30⟩

/-- Claim C7: day selection returns the requested day when it is among the
candidates, otherwise the first available candidate; empty candidates give the
empty result `none` rather than a date or an error. -/
theorem selectDay_spec {α : Type} [DecidableEq α] (candidates : List α)
    (requested : Option α) :
    (∀ r, requested = some r → r ∈ candidates →
        selectDay candidates requested = some r) ∧
      (∀ r, requested = some r → r ∉ candidates →
        selectDay candidates requested = candidates.head?) ∧
      (candidates = [] → selectDay candidates requested = none) ∧
      (candidates ≠ [] →
        ∃ y, selectDay candidates requested = some y ∧ y ∈ candidates) := by
  refine ⟨?_, ?_, ?_, ?_⟩
  · rintro r rfl hmem
    simp [selectDay, hmem]
  · rintro r rfl hmem
    simp [selectDay, hmem]
  · rintro rfl
    cases requested with
    | none => rfl
    | some r => simp [selectDay]
  · intro hne
    obtain ⟨x, xs, rfl⟩ := List.exists_cons_of_ne_nil hne
    cases requested with
    | none => exact ⟨x, rfl, by simp⟩
    | some r =>
      by_cases hmem : r ∈ x :: xs
      · exact ⟨r, by simp [selectDay, hmem], hmem⟩
      · exact ⟨x, by simp [selectDay, hmem], by simp⟩

/-- Witness for C7: requested day 1 is among [3, 1, 2] and is returned;
requested day 5 is not and the first candidate 3 is returned; empty candidates
give `none`. -/
theorem selectDay_spec_witness :
    selectDay [3, 1, 2] (some (1 : ℕ)) = some 1 ∧
      selectDay [3, 1, 2] (some (5 : ℕ)) = some 3 ∧
      selectDay ([] : List ℕ) (some 5) = none :=
  ⟨(selectDay_spec [3, 1, 2] (some 1)).1 1 rfl (by decide),
    ((selectDay_spec [3, 1, 2] (some 5)).2.1 5 rfl (by decide)).trans rfl,
    (selectDay_spec ([] : List ℕ) (some 5)).2.2.1 rfl⟩

/-- Claim C9: the (date, score) series handed to the forecast chart (app.py
line 118) is the same for any two choices of selected day; the selected day
only sets the `axvline` marker (line 122), a pure presentation flag. -/
theorem chart_series_pure {α : Type} [LinearOrder α] (table : List (α × ℚ))
    (lo hi : α) (d1 d2 : Option α) :
    (renderForecastChart table lo hi d1).series
        = (renderForecastChart table lo hi d2).series ∧
      (renderForecastChart table lo hi d1).series = rowsInRange table lo hi ∧
      (renderForecastChart table lo hi d1).marker = d1 :=
  ⟨rfl, rfl, rfl⟩

end ToyotaRisk
